import Mathlib

/-!
Verification of the FMCSA carrier-extraction repository against its
natural-language specification.

The development shallowly embeds the Python sources:

* `src/data_processor.py` — identifier cleaning, enrichment (safety score,
  risk level, authority-status normalization), output formatting;
* `src/main.py` (`ExtractionJob.run`, `ExtractionJob._process_mc_number`) —
  the job orchestrator with its retry/backoff loop and progress counters;
* `src/api.py` (`run_extraction_job`) — the orchestrator wrapper that marks a
  job failed on an orchestrator-level exception.

Python dictionaries holding carrier data are embedded as a structure with
optional fields (`none` = key absent).  `authority_status` additionally
distinguishes a key present with value `None` (`StrField.null`), because the
code calls `.lower()` on it and can raise; code paths that can raise are
embedded in `Except`.  Python float arithmetic on the safety score is embedded
in `ℚ`: every quantity involved (multiples of 0.5 up to 10.0) is exactly
representable in binary floating point, so the embedding is exact.  The
external data source, database and clock are embedded as explicit parameters
(per-attempt outcome oracle, persisted-update trace, timestamp argument).
-/

/-- Value of the `authority_status` key in a raw carrier dictionary:
absent key, key present with Python `None`, or key present with a string. -/
inductive StrField where
  | missing
  | null
  | str (s : String)
deriving DecidableEq, Repr

/-- A raw/enriched carrier record: the dictionary fields read or written by
`DataProcessor` in `src/data_processor.py`.  `none` models an absent key. -/
structure CarrierData where
  mc_number : Option String
  dot_number : Option String
  company_name : Option String
  authority_status : StrField
  insurance_status : Option String
  insurance_expiry : Option String
  safety_score : Option ℚ
  violations_12mo : Option Nat
  accidents_12mo : Option Nat
  phone : Option String
  email : Option String
  state : Option String
  risk_level : Option String
  extracted_date : Option String
deriving DecidableEq, Repr

/-- The empty dictionary: every key absent. -/
def emptyCarrier : CarrierData :=
  ⟨none, none, none, StrField.missing, none, none, none, none, none, none,
   none, none, none, none⟩

/-- Equality of `Except` results is decidable componentwise. -/
instance {ε α : Type} [DecidableEq ε] [DecidableEq α] : DecidableEq (Except ε α) :=
  fun x y =>
    match x, y with
    | Except.ok a, Except.ok b =>
      if h : a = b then isTrue (by rw [h])
      else isFalse (fun hc => h (by injection hc))
    | Except.error e, Except.error e' =>
      if h : e = e' then isTrue (by rw [h])
      else isFalse (fun hc => h (by injection hc))
    | Except.ok _, Except.error _ => isFalse (fun hc => by injection hc)
    | Except.error _, Except.ok _ => isFalse (fun hc => by injection hc)

/-- Python `str.lower()`, character by character (ASCII case folding suffices
for the keyword sets involved). -/
def pyLower (s : String) : String := String.mk (s.toList.map Char.toLower)

/-- Python `needle in hay` on strings: contiguous-substring test. -/
def containsSub (hay needle : String) : Bool :=
  decide (needle.toList <:+: hay.toList)

/-- The active-indicator keywords of `determine_authority_status`. -/
def activeTerms : List String := ["active", "authorized", "current", "valid"]

/-- The inactive-indicator keywords of `determine_authority_status`. -/
def inactiveTerms : List String :=
  ["inactive", "revoked", "cancelled", "canceled", "out of service"]

/-- `carrier_data.get("authority_status", "")`: absent key yields `""`,
a key present with `None` yields Python `None` (here `none`). -/
def statusGetD (f : StrField) : Option String :=
  match f with
  | StrField.missing => some ""
  | StrField.null => none
  | StrField.str s => some s

/-- Embeds `DataProcessor.determine_authority_status`
(src/data_processor.py:86-114).  `.error ()` models the `AttributeError`
raised by `None.lower()` when the key is present with value `None`. -/
def classifyStatus (f : StrField) : Except Unit String :=
  match statusGetD f with
  | none => Except.error ()
  | some raw =>
    let auth := pyLower raw
    if auth = "" then Except.ok "Unknown"
    else if activeTerms.any (fun t => containsSub auth t) then Except.ok "Active"
    else if inactiveTerms.any (fun t => containsSub auth t) then Except.ok "Inactive"
    else if containsSub auth "suspended" then Except.ok "Suspended"
    else Except.ok "Unknown"

/-- `determine_authority_status` applied to a carrier dictionary. -/
def determine_authority_status (c : CarrierData) : Except Unit String :=
  classifyStatus c.authority_status

/-- `carrier_data.get(key, 0) or 0` for the numeric 12-month counters. -/
def coerceNum (o : Option Nat) : Nat := o.getD 0

/-- Python `round(x, 1)` on the exact values arising in the safety score
(multiples of 0.5, hence already integral in tenths). -/
def roundTo1 (q : ℚ) : ℚ := (round (q * 10) : ℚ) / 10

/-- Embeds `DataProcessor.calculate_safety_score`
(src/data_processor.py:116-145), line for line. -/
def calculate_safety_score (c : CarrierData) : ℚ :=
  let violations : ℚ := (coerceNum c.violations_12mo : ℚ)
  let accidents : ℚ := (coerceNum c.accidents_12mo : ℚ)
  let score0 : ℚ := 10
  let score1 : ℚ := score0 - min (violations * 0.5) 4
  let score2 : ℚ := score1 - min (accidents * 1.5) 4.5
  let score3 : ℚ := max score2 1
  roundTo1 score3

/-- Embeds `DataProcessor.determine_risk_level`
(src/data_processor.py:147-170). -/
def determine_risk_level (c : CarrierData) : String :=
  let violations := coerceNum c.violations_12mo
  let accidents := coerceNum c.accidents_12mo
  if 3 < violations ∨ 1 < accidents then "High"
  else if 0 < violations ∨ 0 < accidents then "Medium"
  else "Low"

/-- Python truthiness test `not enriched.get("authority_status")`. -/
def statusFalsy (f : StrField) : Bool :=
  match f with
  | StrField.missing => true
  | StrField.null => true
  | StrField.str s => decide (s = "")

/-- The reclassification guard of `enrich_carrier_data`:
`not enriched.get("authority_status") or enriched["authority_status"] == "Unknown"`
(src/data_processor.py:186). -/
def needsClassify (c : CarrierData) : Bool :=
  statusFalsy c.authority_status || decide (c.authority_status = StrField.str "Unknown")

/-- Embeds `DataProcessor.enrich_carrier_data` (src/data_processor.py:172-204).
`datetime.now().isoformat()` is embedded as the explicit `now` argument; the
possible `AttributeError` from `determine_authority_status` propagates. -/
def enrich_carrier_data (c : CarrierData) (now : String) : Except Unit CarrierData :=
  let statusResult : Except Unit StrField :=
    if needsClassify c then Except.map StrField.str (determine_authority_status c)
    else Except.ok c.authority_status
  match statusResult with
  | Except.error e => Except.error e
  | Except.ok st =>
    Except.ok { c with
      authority_status := st,
      safety_score := some (calculate_safety_score c),
      risk_level := some (determine_risk_level c),
      extracted_date := some now,
      violations_12mo := some (coerceNum c.violations_12mo),
      accidents_12mo := some (coerceNum c.accidents_12mo) }

/-- A value appearing in the formatted output dictionary: a string, a Python
`None`, a count, or a (safety-score) number. -/
inductive OutVal where
  | vs (s : String)
  | vnull
  | vn (n : Nat)
  | vq (q : ℚ)
deriving DecidableEq, Repr

/-- `carrier_data.get(key, "")` for a string-valued key. -/
def optStrOut (o : Option String) : OutVal := OutVal.vs (o.getD "")

/-- `carrier_data.get("authority_status", "")` rendered into the output. -/
def strFieldOut (f : StrField) : OutVal :=
  match f with
  | StrField.missing => OutVal.vs ""
  | StrField.null => OutVal.vnull
  | StrField.str s => OutVal.vs s

/-- Embeds `DataProcessor.format_for_output` (src/data_processor.py:206-232):
the ordered output dictionary (Python dicts preserve insertion order). -/
def format_for_output (c : CarrierData) : List (String × OutVal) :=
  [("MC#", optStrOut c.mc_number),
   ("DOT#", optStrOut c.dot_number),
   ("Company Name", optStrOut c.company_name),
   ("Authority Status", strFieldOut c.authority_status),
   ("Insurance Status", optStrOut c.insurance_status),
   ("Insurance Expiry", optStrOut c.insurance_expiry),
   ("Safety Score", match c.safety_score with
     | some q => OutVal.vq q
     | none => OutVal.vs ""),
   ("Violations (12mo)", OutVal.vn (c.violations_12mo.getD 0)),
   ("Accidents (12mo)", OutVal.vn (c.accidents_12mo.getD 0)),
   ("Phone", optStrOut c.phone),
   ("Email", optStrOut c.email),
   ("State", optStrOut c.state),
   ("Risk Level", optStrOut c.risk_level),
   ("Extracted Date", optStrOut c.extracted_date)]

/-- Python regex `\s` character class (space, tab, newline, carriage return,
vertical tab, form feed). -/
def isPySpace (c : Char) : Bool :=
  c = ' ' || c = '\t' || c = '\n' || c = '\r' || c = '\x0b' || c = '\x0c'

/-- Character class of `re.sub(r'[\s\-_\.]', '', ...)` in `clean_mc_number`. -/
def isSepChar (c : Char) : Bool := isPySpace c || c = '-' || c = '_' || c = '.'

/-- Python `str.strip()` on the underlying character list. -/
def pyStrip (l : List Char) : List Char :=
  ((l.dropWhile isPySpace).reverse.dropWhile isPySpace).reverse

/-- Python `str.strip()`. -/
def pyStripS (s : String) : String := String.mk (pyStrip s.toList)

/-- Python `str.split(sep)` for a one-character separator: splits at every
occurrence and keeps empty segments (`"".split(c) = [""]`). -/
def splitOnChar (sep : Char) : List Char → List (List Char)
  | [] => [[]]
  | c :: cs =>
    if c = sep then [] :: splitOnChar sep cs
    else
      match splitOnChar sep cs with
      | [] => [[c]]
      | t :: ts => (c :: t) :: ts

/-- `str.split(sep)` on strings. -/
def splitS (sep : Char) (s : String) : List String :=
  (splitOnChar sep s.toList).map String.mk

/-- `re.sub(r'^MC', '', cleaned, flags=re.IGNORECASE)`: the anchored pattern
matches at most once, removing a leading case-insensitive `MC` pair. -/
def stripMC (l : List Char) : List Char :=
  match l with
  | a :: b :: rest =>
    if (a = 'M' || a = 'm') && (b = 'C' || b = 'c') then rest else a :: b :: rest
  | l => l

/-- Embeds `DataProcessor.clean_mc_number` (src/data_processor.py:17-42).
`str.isdigit()` is false on the empty string, hence the nonemptiness test. -/
def clean_mc_number (s : String) : Option String :=
  if s = "" then none
  else
    let cleaned := (pyStrip s.toList).filter (fun c => !isSepChar c)
    let cleaned2 := stripMC cleaned
    if cleaned2 ≠ [] ∧ cleaned2.all Char.isDigit ∧ cleaned2.length ≤ 10 then
      some (String.mk cleaned2)
    else none

/-- The stripped comma-separated parts of the nonblank lines of the input:
the token stream scanned by the nested loops of
`extract_mc_numbers_from_input` (src/data_processor.py:55-73). -/
def rawParts (input : String) : List String :=
  ((splitS '\n' (pyStripS input)).filter
      (fun line => decide (pyStripS line ≠ ""))).flatMap
    (fun line => (splitS ',' line).map pyStripS)

/-- The `mc_numbers` list accumulated by the nested loops: each part cleaned,
invalid parts discarded. -/
def cleanedTokens (input : String) : List String :=
  (rawParts input).filterMap clean_mc_number

/-- The duplicate-removal loop of `extract_mc_numbers_from_input`
(src/data_processor.py:75-81), with its `seen` accumulator. -/
def dedupAux (seen : List String) : List String → List String
  | [] => []
  | x :: xs =>
    if x ∈ seen then dedupAux seen xs else x :: dedupAux (x :: seen) xs

/-- Duplicate removal keeping first occurrences (`seen` starts empty). -/
def dedupFirst (l : List String) : List String := dedupAux [] l

/-- Embeds `DataProcessor.extract_mc_numbers_from_input`
(src/data_processor.py:44-84). -/
def extract_mc_numbers_from_input (input : String) : List String :=
  dedupFirst (cleanedTokens input)

/-- Terminal outcome of processing one identifier in
`ExtractionJob._process_mc_number` (src/main.py:112-167): the identifier
either succeeds, or exhausts its retries and is recorded as a
`FailedExtraction` with the given reason and retry count. -/
inductive ItemOutcome where
  | succeeded
  | exhausted (reason : String) (retryCount : Nat)
deriving DecidableEq, Repr

/-- Observable trace of one run of `_process_mc_number`: number of lookup
attempts made, the backoff sleeps performed (in seconds, in order), and the
terminal outcome. -/
structure ItemTrace where
  attempts : Nat
  sleeps : List Nat
  outcome : ItemOutcome
deriving DecidableEq, Repr

/-- The retry annotation appended to the last error:
`f"{last_error} (after {self.max_retries} retries)"` (src/main.py:157). -/
def retrySuffix (maxRetries : Nat) : String :=
  " (after " ++ toString maxRetries ++ " retries)"

/-- The `while retry_count <= self.max_retries` loop of
`_process_mc_number`.  `attemptF j` is the outcome of the j-th lookup attempt
(scraper call plus validation/enrichment/save, any exception carried as the
error string); `k` is the current attempt index (`retry_count`), `left` the
number of further attempts still allowed (`max_retries - retry_count`), so
the annotated maximum is `k + left`.  On a failure with attempts remaining
the loop sleeps `retry_count * 2` seconds (`wait_time = retry_count * 2`
after the increment, src/main.py:152) and retries. -/
def runAttemptsFrom (attemptF : Nat → Except String Unit) (k : Nat) :
    Nat → ItemTrace
  | 0 =>
    match attemptF k with
    | Except.ok _ => ⟨1, [], ItemOutcome.succeeded⟩
    | Except.error e => ⟨1, [], ItemOutcome.exhausted (e ++ retrySuffix k) k⟩
  | left + 1 =>
    match attemptF k with
    | Except.ok _ => ⟨1, [], ItemOutcome.succeeded⟩
    | Except.error _ =>
      let rest := runAttemptsFrom attemptF (k + 1) left
      ⟨rest.attempts + 1, (k + 1) * 2 :: rest.sleeps, rest.outcome⟩

/-- `_process_mc_number` for one identifier: the retry loop started at
`retry_count = 0` with `maxRetries` further attempts allowed. -/
def processItem (attemptF : Nat → Except String Unit) (maxRetries : Nat) :
    ItemTrace :=
  runAttemptsFrom attemptF 0 maxRetries

/-- One persisted row write of `Database.update_job_status`
(src/database.py:117-161): the status string, both counters, and whether
`completed_at` was set by this write (it is exactly when the status is
terminal). -/
structure JobUpdate where
  status : String
  processed : Nat
  failed : Nat
  completedAtSet : Bool
deriving DecidableEq, Repr

/-- An `update_job_status`/`create_job` write: `completed_at` is set iff
`status in ["completed", "failed"]` (src/database.py:147-149). -/
def mkUpdate (st : String) (p f : Nat) : JobUpdate :=
  ⟨st, p, f, decide (st = "completed" ∨ st = "failed")⟩

/-- A persisted `FailedExtraction` row (`Database.save_failed_extraction`,
src/database.py:210-232), keyed here by the item's index in the input list. -/
structure FailedRec where
  itemIdx : Nat
  reason : String
  retryCount : Nat
deriving DecidableEq, Repr

/-- Result of the per-item loop: progress updates persisted after each item,
`FailedExtraction` rows persisted, and the final counter values. -/
structure LoopResult where
  updates : List JobUpdate
  failures : List FailedRec
  pEnd : Nat
  fEnd : Nat
deriving DecidableEq, Repr

/-- The `for idx, mc_number in enumerate(self.mc_numbers)` loop of
`ExtractionJob.run` (src/main.py:83-97): processes the remaining item
indices with current counters `p` (processed) and `f` (failed), returning
the progress updates persisted after each item, the failure rows persisted,
and the final counters.  `attempt i j` is the outcome of attempt `j` on
item `i`. -/
def runJobAux (attempt : Nat → Nat → Except String Unit) (maxRetries : Nat) :
    List Nat → Nat → Nat → LoopResult
  | [], p, f => ⟨[], [], p, f⟩
  | i :: rest, p, f =>
    match (processItem (attempt i) maxRetries).outcome with
    | ItemOutcome.succeeded =>
      let r := runJobAux attempt maxRetries rest (p + 1) f
      ⟨mkUpdate "processing" (p + 1) f :: r.updates, r.failures, r.pEnd, r.fEnd⟩
    | ItemOutcome.exhausted reason rc =>
      let r := runJobAux attempt maxRetries rest p (f + 1)
      ⟨mkUpdate "processing" p (f + 1) :: r.updates,
       ⟨i, reason, rc⟩ :: r.failures, r.pEnd, r.fEnd⟩

/-- Everything the orchestrator persists for one job: the ordered job-row
writes and the ordered `FailedExtraction` rows. -/
structure JobTrace where
  updates : List JobUpdate
  failures : List FailedRec
deriving DecidableEq, Repr

/-- Embeds `ExtractionJob.run` (src/main.py:70-110) for a job of `n`
identifiers: `create_job` persists `(processing, 0, 0)`, each item is
processed and a progress update persisted, then the job is marked
`completed` with the final counters. -/
def runJob (attempt : Nat → Nat → Except String Unit) (maxRetries n : Nat) :
    JobTrace :=
  let r := runJobAux attempt maxRetries (List.range n) 0 0
  ⟨mkUpdate "processing" 0 0 :: r.updates ++ [mkUpdate "completed" r.pEnd r.fEnd],
   r.failures⟩

/-- Embeds `run_extraction_job` (src/api.py:129-141) around
`ExtractionJob.run`: an orchestrator-level exception (embedded here as a
failing scraper initialization, the step between `create_job` and the item
loop) is caught and the job marked `failed`; the counters of that write are
the last persisted values, i.e. still `(0, 0)`. -/
def runExtractionJob (scraperInit : Except String Unit)
    (attempt : Nat → Nat → Except String Unit) (maxRetries n : Nat) :
    JobTrace :=
  match scraperInit with
  | Except.ok _ => runJob attempt maxRetries n
  | Except.error _ =>
    ⟨[mkUpdate "processing" 0 0, mkUpdate "failed" 0 0], []⟩

/-! ## Safety score (claim C4) -/

/-- The violation deduction `min(violations * 0.5, 4.0)` lies in `[0, 4]`. -/
lemma violation_deduction_bounds (v : ℕ) :
    0 ≤ min ((v : ℚ) * 0.5) 4 ∧ min ((v : ℚ) * 0.5) 4 ≤ 4 :=
  ⟨le_min (by positivity) (by norm_num), min_le_right _ _⟩

/-- The accident deduction `min(accidents * 1.5, 4.5)` lies in `[0, 4.5]`. -/
lemma accident_deduction_bounds (a : ℕ) :
    0 ≤ min ((a : ℚ) * 1.5) 4.5 ∧ min ((a : ℚ) * 1.5) 4.5 ≤ 4.5 :=
  ⟨le_min (by positivity) (by norm_num), min_le_right _ _⟩

/-- The pre-rounding score is an integer number of tenths. -/
lemma safety_tenths_int (v a : ℕ) :
    ∃ z : ℤ, ((10 : ℚ) - min ((v : ℚ) * 0.5) 4 - min ((a : ℚ) * 1.5) 4.5) * 10 = (z : ℚ) := by
  rcases min_cases ((v : ℚ) * 0.5) 4 with ⟨h1, _⟩ | ⟨h1, _⟩ <;>
    rcases min_cases ((a : ℚ) * 1.5) 4.5 with ⟨h2, _⟩ | ⟨h2, _⟩ <;> rw [h1, h2]
  · exact ⟨100 - 5 * v - 15 * a, by push_cast; ring⟩
  · exact ⟨55 - 5 * v, by push_cast; ring⟩
  · exact ⟨60 - 15 * a, by push_cast; ring⟩
  · exact ⟨15, by norm_num⟩

/-- `round(x, 1)` is the identity on integral numbers of tenths. -/
lemma roundTo1_of_tenths {q : ℚ} (h : ∃ z : ℤ, q * 10 = (z : ℚ)) : roundTo1 q = q := by
  obtain ⟨z, hz⟩ := h
  rw [roundTo1, hz, round_intCast, div_eq_iff (by norm_num : (10 : ℚ) ≠ 0)]
  exact hz.symm

/-- Closed form of the safety score: the clamp at `1.0` and the final rounding
never act, because the deductions are capped at `4 + 4.5` and the
pre-rounding value is an exact number of tenths. -/
lemma safety_score_closed (c : CarrierData) :
    calculate_safety_score c = (10 : ℚ)
      - min ((coerceNum c.violations_12mo : ℚ) * 0.5) 4
      - min ((coerceNum c.accidents_12mo : ℚ) * 1.5) 4.5 := by
  have hb1 := violation_deduction_bounds (coerceNum c.violations_12mo)
  have hb2 := accident_deduction_bounds (coerceNum c.accidents_12mo)
  have hmax : max ((10 : ℚ) - min ((coerceNum c.violations_12mo : ℚ) * 0.5) 4
      - min ((coerceNum c.accidents_12mo : ℚ) * 1.5) 4.5) 1
      = (10 : ℚ) - min ((coerceNum c.violations_12mo : ℚ) * 0.5) 4
        - min ((coerceNum c.accidents_12mo : ℚ) * 1.5) 4.5 :=
    max_eq_left (by have := hb1.2; have := hb2.2; linarith)
  simp only [calculate_safety_score]
  rw [hmax, roundTo1_of_tenths (safety_tenths_int _ _)]

/-- Claim C4: `calculate_safety_score` returns
`round(max(10.0 - min(v*0.5, 4.0) - min(a*1.5, 4.5), 1.0), 1)` for the
(missing-coerced-to-0) violation and accident counts; consequently the score
lies in `[1.0, 10.0]` and is an exact number of tenths (one decimal digit);
`v=5, a=2` yields `4.5` and `v=10, a=0` yields `6.0`. -/
theorem C4_safety_score (c : CarrierData) :
    calculate_safety_score c =
      roundTo1 (max ((10 : ℚ)
        - min ((coerceNum c.violations_12mo : ℚ) * (1 / 2)) 4
        - min ((coerceNum c.accidents_12mo : ℚ) * (3 / 2)) (9 / 2)) 1) ∧
    1 ≤ calculate_safety_score c ∧
    calculate_safety_score c ≤ 10 ∧
    (∃ z : ℤ, calculate_safety_score c = (z : ℚ) / 10) ∧
    calculate_safety_score
      { emptyCarrier with violations_12mo := some 5, accidents_12mo := some 2 } = 9 / 2 ∧
    calculate_safety_score
      { emptyCarrier with violations_12mo := some 10, accidents_12mo := some 0 } = 6 := by
  have hb1 := violation_deduction_bounds (coerceNum c.violations_12mo)
  have hb2 := accident_deduction_bounds (coerceNum c.accidents_12mo)
  have hcalc := safety_score_closed c
  have c12 : (1 / 2 : ℚ) = 0.5 := by norm_num
  have c32 : (3 / 2 : ℚ) = 1.5 := by norm_num
  have c92 : (9 / 2 : ℚ) = 4.5 := by norm_num
  refine ⟨?_, ?_, ?_, ?_, ?_, ?_⟩
  · rw [c12, c32, c92]
    have hmax : max ((10 : ℚ) - min ((coerceNum c.violations_12mo : ℚ) * 0.5) 4
        - min ((coerceNum c.accidents_12mo : ℚ) * 1.5) 4.5) 1
        = (10 : ℚ) - min ((coerceNum c.violations_12mo : ℚ) * 0.5) 4
          - min ((coerceNum c.accidents_12mo : ℚ) * 1.5) 4.5 :=
      max_eq_left (by have := hb1.2; have := hb2.2; linarith)
    rw [hmax, roundTo1_of_tenths (safety_tenths_int _ _), hcalc]
  · rw [hcalc]; have := hb1.2; have := hb2.2; linarith
  · rw [hcalc]; have := hb1.1; have := hb2.1; linarith
  · obtain ⟨z, hz⟩ := safety_tenths_int (coerceNum c.violations_12mo) (coerceNum c.accidents_12mo)
    refine ⟨z, ?_⟩
    rw [hcalc, eq_div_iff (by norm_num : (10 : ℚ) ≠ 0)]
    exact hz
  · rw [safety_score_closed]
    simp only [emptyCarrier, coerceNum, Option.getD_some]
    norm_num [min_def]
  · rw [safety_score_closed]
    simp only [emptyCarrier, coerceNum, Option.getD_some]
    norm_num [min_def]

/-! ## Risk level (claim C5) -/

/-- Claim C5: `determine_risk_level` returns `"High"` when `violations > 3`
or `accidents > 1`, otherwise `"Medium"` when either count is positive,
otherwise `"Low"` (missing counts coerced to 0). -/
theorem C5_risk_level (c : CarrierData) :
    ((3 < coerceNum c.violations_12mo ∨ 1 < coerceNum c.accidents_12mo) →
      determine_risk_level c = "High") ∧
    (¬(3 < coerceNum c.violations_12mo ∨ 1 < coerceNum c.accidents_12mo) →
      (0 < coerceNum c.violations_12mo ∨ 0 < coerceNum c.accidents_12mo) →
      determine_risk_level c = "Medium") ∧
    (coerceNum c.violations_12mo = 0 → coerceNum c.accidents_12mo = 0 →
      determine_risk_level c = "Low") := by
  refine ⟨?_, ?_, ?_⟩
  · intro h
    simp only [determine_risk_level]
    rw [if_pos h]
  · intro h1 h2
    simp only [determine_risk_level]
    rw [if_neg h1, if_pos h2]
  · intro hv ha
    simp [determine_risk_level, hv, ha]

/-- A record with 5 violations and 2 accidents in 12 months. -/
def rawHigh : CarrierData :=
  { emptyCarrier with violations_12mo := some 5, accidents_12mo := some 2 }

/-- A record with a single violation. -/
def rawMedium : CarrierData := { emptyCarrier with violations_12mo := some 1 }

/-- Witness for claim C5 at concrete records. -/
theorem C5_risk_level_witness :
    determine_risk_level rawHigh = "High" ∧
    determine_risk_level rawMedium = "Medium" ∧
    determine_risk_level emptyCarrier = "Low" :=
  ⟨(C5_risk_level rawHigh).1 (by decide),
   (C5_risk_level rawMedium).2.1 (by decide) (by decide),
   (C5_risk_level emptyCarrier).2.2 rfl rfl⟩

/-! ## Authority-status normalization (claim C6) -/

/-- Claim C6, at the failing input: a raw status equal to `"inactive"`
contains the keyword `"active"`, which `determine_authority_status` checks
first, so the code classifies it as `"Active"`, not `"Inactive"` — even
though `"inactive"` appears in the code's own inactive-indicator keyword
list (where it is unreachable). -/
theorem C6_inactive_classified_active :
    determine_authority_status
      { emptyCarrier with authority_status := StrField.str "inactive" } = Except.ok "Active" ∧
    determine_authority_status
      { emptyCarrier with authority_status := StrField.str "inactive" } ≠ Except.ok "Inactive" := by
  constructor
  · decide
  · decide

/-! ## Output formatting (claims C9) -/

/-- Claim C9, counterexample: an absent `violations_12mo` is rendered as the
number `0`, not as the empty string. -/
theorem C9_output_counterexample :
    (format_for_output emptyCarrier)[7]? = some ("Violations (12mo)", OutVal.vn 0) ∧
    OutVal.vn 0 ≠ OutVal.vs "" :=
  ⟨rfl, by decide⟩

/-- Claim C9 amended: `format_for_output` emits exactly the 14 fields in the
fixed order; absent string-valued inputs are rendered as the empty string,
while absent `violations_12mo` and `accidents_12mo` are rendered as the
number `0` (and an absent safety score as the empty string). -/

theorem C9_output_format (c : CarrierData) :
    (format_for_output c).map Prod.fst =
      ["MC#", "DOT#", "Company Name", "Authority Status", "Insurance Status",
       "Insurance Expiry", "Safety Score", "Violations (12mo)", "Accidents (12mo)",
       "Phone", "Email", "State", "Risk Level", "Extracted Date"] ∧
    (format_for_output c).length = 14 ∧
    (c.mc_number = none → (format_for_output c)[0]? = some ("MC#", OutVal.vs "")) ∧
    (c.dot_number = none → (format_for_output c)[1]? = some ("DOT#", OutVal.vs "")) ∧
    (c.company_name = none →
      (format_for_output c)[2]? = some ("Company Name", OutVal.vs "")) ∧
    (c.authority_status = StrField.missing →
      (format_for_output c)[3]? = some ("Authority Status", OutVal.vs "")) ∧
    (c.insurance_status = none →
      (format_for_output c)[4]? = some ("Insurance Status", OutVal.vs "")) ∧
    (c.insurance_expiry = none →
      (format_for_output c)[5]? = some ("Insurance Expiry", OutVal.vs "")) ∧
    (c.safety_score = none →
      (format_for_output c)[6]? = some ("Safety Score", OutVal.vs "")) ∧
    (c.violations_12mo = none →
      (format_for_output c)[7]? = some ("Violations (12mo)", OutVal.vn 0)) ∧
    (c.accidents_12mo = none →
      (format_for_output c)[8]? = some ("Accidents (12mo)", OutVal.vn 0)) ∧
    (c.phone = none → (format_for_output c)[9]? = some ("Phone", OutVal.vs "")) ∧
    (c.email = none → (format_for_output c)[10]? = some ("Email", OutVal.vs "")) ∧
    (c.state = none → (format_for_output c)[11]? = some ("State", OutVal.vs "")) ∧
    (c.risk_level = none →
      (format_for_output c)[12]? = some ("Risk Level", OutVal.vs "")) ∧
    (c.extracted_date = none →
      (format_for_output c)[13]? = some ("Extracted Date", OutVal.vs "")) := by
  refine ⟨rfl, rfl, ?_, ?_, ?_, ?_, ?_, ?_, ?_, ?_, ?_, ?_, ?_, ?_, ?_, ?_⟩ <;>
    intro h <;> simp [format_for_output, optStrOut, strFieldOut, h]

/-- Witness for claim C9's amended theorem at the empty record. -/
theorem C9_output_format_witness :
    (format_for_output emptyCarrier).map Prod.fst =
      ["MC#", "DOT#", "Company Name", "Authority Status", "Insurance Status",
       "Insurance Expiry", "Safety Score", "Violations (12mo)", "Accidents (12mo)",
       "Phone", "Email", "State", "Risk Level", "Extracted Date"] ∧
    (format_for_output emptyCarrier)[0]? = some ("MC#", OutVal.vs "") ∧
    (format_for_output emptyCarrier)[7]? = some ("Violations (12mo)", OutVal.vn 0) ∧
    (format_for_output emptyCarrier)[8]? = some ("Accidents (12mo)", OutVal.vn 0) := by
  obtain ⟨h1, _, h3, _, _, _, _, _, _, h10, h11, _⟩ := C9_output_format emptyCarrier
  exact ⟨h1, h3 rfl, h10 rfl, h11 rfl⟩

/-! ## Null-status totality (claim C10) -/

/-- For a missing or string-valued status, `determine_authority_status`
always returns a classification (every branch is an `ok`). -/
lemma classify_ok_of_ne_null {f : StrField} (h : f ≠ StrField.null) :
    ∃ r, classifyStatus f = Except.ok r := by
  cases f with
  | missing => exact ⟨"Unknown", rfl⟩
  | null => exact absurd rfl h
  | str s =>
    simp only [classifyStatus, statusGetD]
    split_ifs <;> exact ⟨_, rfl⟩

/-- Enrichment succeeds whenever classification does. -/
lemma enrich_ok_of_classify {c : CarrierData} {r : String}
    (hr : determine_authority_status c = Except.ok r) (now : String) :
    ∃ d, enrich_carrier_data c now = Except.ok d := by
  simp only [enrich_carrier_data]
  by_cases hneed : needsClassify c = true
  · rw [if_pos hneed, hr]
    exact ⟨_, rfl⟩
  · rw [if_neg hneed]
    exact ⟨_, rfl⟩

/-- Claim C10: a record whose `authority_status` key is present with value
`None` makes `determine_authority_status` raise (`None.lower()`), and
`enrich_carrier_data` — which invokes it because `None` is falsy — raise as
well; for any record whose status, when present, is a string, both
functions return normally. -/
theorem C10_null_status_raises (c : CarrierData) :
    (c.authority_status = StrField.null →
      determine_authority_status c = Except.error () ∧
      ∀ now, enrich_carrier_data c now = Except.error ()) ∧
    (c.authority_status ≠ StrField.null →
      (∃ r, determine_authority_status c = Except.ok r) ∧
      ∀ now, ∃ d, enrich_carrier_data c now = Except.ok d) := by
  constructor
  · intro h
    have hd : determine_authority_status c = Except.error () := by
      simp [determine_authority_status, classifyStatus, statusGetD, h]
    have hn : needsClassify c = true := by simp [needsClassify, statusFalsy, h]
    refine ⟨hd, fun now => ?_⟩
    simp only [enrich_carrier_data]
    rw [if_pos hn, hd]
    rfl
  · intro h
    obtain ⟨r, hr⟩ := classify_ok_of_ne_null h
    have hr' : determine_authority_status c = Except.ok r := hr
    exact ⟨⟨r, hr'⟩, fun now => enrich_ok_of_classify hr' now⟩

/-- A record whose `authority_status` key holds Python `None`. -/
def nullStatusCarrier : CarrierData :=
  { emptyCarrier with authority_status := StrField.null }

/-- Witness for claim C10 at concrete records. -/
theorem C10_null_status_witness :
    determine_authority_status nullStatusCarrier = Except.error () ∧
    enrich_carrier_data nullStatusCarrier "2024-01-01T00:00:00" = Except.error () ∧
    (∃ d, enrich_carrier_data emptyCarrier "2024-01-01T00:00:00" = Except.ok d) := by
  obtain ⟨hnull, _⟩ := C10_null_status_raises nullStatusCarrier
  obtain ⟨hd, he⟩ := hnull rfl
  exact ⟨hd, he _, ((C10_null_status_raises emptyCarrier).2 (by decide)).2 _⟩

/-! ## Enrichment idempotence (claim C7) -/

/-- Inversion for a successful enrichment: the result is the input record
with the derived fields overwritten; the written status comes from
reclassification exactly when the incoming status was falsy or `"Unknown"`. -/
lemma enrich_ok_elim {c : CarrierData} {now : String} {r : CarrierData}
    (h : enrich_carrier_data c now = Except.ok r) :
    ∃ st : StrField,
      r = { c with
            authority_status := st
            safety_score := some (calculate_safety_score c)
            risk_level := some (determine_risk_level c)
            extracted_date := some now
            violations_12mo := some (coerceNum c.violations_12mo)
            accidents_12mo := some (coerceNum c.accidents_12mo) } ∧
      ((needsClassify c = true ∧
         ∃ s, determine_authority_status c = Except.ok s ∧ st = StrField.str s) ∨
       (needsClassify c = false ∧ st = c.authority_status)) := by
  simp only [enrich_carrier_data] at h
  by_cases hn : needsClassify c = true
  · rw [if_pos hn] at h
    cases hcl : determine_authority_status c with
    | error e =>
      rw [hcl] at h
      simp [Except.map] at h
    | ok s =>
      rw [hcl] at h
      simp only [Except.map] at h
      injection h with h
      exact ⟨StrField.str s, h.symm, Or.inl ⟨hn, s, rfl, rfl⟩⟩
  · rw [if_neg hn] at h
    injection h with h
    exact ⟨c.authority_status, h.symm, Or.inr ⟨Bool.eq_false_iff.mpr hn, rfl⟩⟩

/-- The safety score depends only on the coerced numeric counters. -/
lemma safety_score_congr {c d : CarrierData}
    (hv : coerceNum c.violations_12mo = coerceNum d.violations_12mo)
    (ha : coerceNum c.accidents_12mo = coerceNum d.accidents_12mo) :
    calculate_safety_score c = calculate_safety_score d := by
  simp only [calculate_safety_score, hv, ha]

/-- The risk level depends only on the coerced numeric counters. -/
lemma risk_level_congr {c d : CarrierData}
    (hv : coerceNum c.violations_12mo = coerceNum d.violations_12mo)
    (ha : coerceNum c.accidents_12mo = coerceNum d.accidents_12mo) :
    determine_risk_level c = determine_risk_level d := by
  simp only [determine_risk_level, hv, ha]

/-- Every successful classification is one of the four status words. -/
lemma classify_values {f : StrField} {s : String}
    (h : classifyStatus f = Except.ok s) :
    s = "Active" ∨ s = "Inactive" ∨ s = "Suspended" ∨ s = "Unknown" := by
  cases f with
  | missing =>
    injection h with h
    exact Or.inr (Or.inr (Or.inr h.symm))
  | null => exact absurd h (by simp [classifyStatus, statusGetD])
  | str t =>
    simp only [classifyStatus, statusGetD] at h
    split_ifs at h <;> injection h with h <;> subst h <;> tauto

/-- Claim C7 amended: enrichment is deterministic given the enrichment
timestamp, and idempotent on `safety_score`, `risk_level` and
`authority_status`; `extracted_date` is overwritten with the timestamp of
each call, so it is preserved only when the two calls carry the same
timestamp. -/
theorem C7_enrich_idempotent (c : CarrierData) (now1 now2 : String)
    (r1 r2 : CarrierData)
    (h1 : enrich_carrier_data c now1 = Except.ok r1)
    (h2 : enrich_carrier_data r1 now2 = Except.ok r2) :
    r2.safety_score = r1.safety_score ∧
    r2.risk_level = r1.risk_level ∧
    r2.authority_status = r1.authority_status ∧
    r2.extracted_date = some now2 ∧
    (now2 = now1 → r2.extracted_date = r1.extracted_date) := by
  obtain ⟨st1, hr1, hcase1⟩ := enrich_ok_elim h1
  obtain ⟨st2, hr2, hcase2⟩ := enrich_ok_elim h2
  have hv : coerceNum r1.violations_12mo = coerceNum c.violations_12mo := by
    rw [hr1]; simp [coerceNum]
  have ha : coerceNum r1.accidents_12mo = coerceNum c.accidents_12mo := by
    rw [hr1]; simp [coerceNum]
  have hsc : calculate_safety_score r1 = calculate_safety_score c :=
    safety_score_congr hv ha
  have hrk : determine_risk_level r1 = determine_risk_level c :=
    risk_level_congr hv ha
  have hst1 : r1.authority_status = st1 := by rw [hr1]
  have hscore1 : r1.safety_score = some (calculate_safety_score c) := by rw [hr1]
  have hrisk1 : r1.risk_level = some (determine_risk_level c) := by rw [hr1]
  have hdate1 : r1.extracted_date = some now1 := by rw [hr1]
  -- the status written by the first enrichment is a nonempty string
  have hstr : ∃ s, st1 = StrField.str s ∧ s ≠ "" := by
    rcases hcase1 with ⟨_, s, hcl, hs⟩ | ⟨hn, hs⟩
    · refine ⟨s, hs, ?_⟩
      rcases classify_values hcl with h | h | h | h <;> subst h <;> decide
    · simp only [needsClassify, Bool.or_eq_false_iff] at hn
      cases hst : c.authority_status with
      | missing => rw [hst] at hn; simp [statusFalsy] at hn
      | null => rw [hst] at hn; simp [statusFalsy] at hn
      | str t =>
        refine ⟨t, by rw [hs, hst], ?_⟩
        rw [hst] at hn
        simpa [statusFalsy] using hn.1
  obtain ⟨s, hs1, hsne⟩ := hstr
  have hstatus : st2 = st1 := by
    by_cases hu : s = "Unknown"
    · subst hu
      have hn2 : needsClassify r1 = true := by
        simp [needsClassify, hst1, hs1]
      rcases hcase2 with ⟨_, s2, hcl2, hs2⟩ | ⟨hn2', _⟩
      · have hdet : determine_authority_status r1 = Except.ok "Unknown" := by
          rw [determine_authority_status, hst1, hs1]; decide
        rw [hdet] at hcl2
        injection hcl2 with hcl2
        rw [hs2, ← hcl2, hs1]
      · rw [hn2] at hn2'; exact absurd hn2' (by decide)
    · have hn2 : needsClassify r1 = false := by
        simp [needsClassify, hst1, hs1, statusFalsy, hsne, hu]
      rcases hcase2 with ⟨hn2', _⟩ | ⟨_, hs2⟩
      · rw [hn2] at hn2'; exact absurd hn2' (by decide)
      · rw [hs2, hst1]
  have hscore2 : r2.safety_score = some (calculate_safety_score r1) := by rw [hr2]
  have hrisk2 : r2.risk_level = some (determine_risk_level r1) := by rw [hr2]
  have hst2 : r2.authority_status = st2 := by rw [hr2]
  have hdate2 : r2.extracted_date = some now2 := by rw [hr2]
  refine ⟨?_, ?_, ?_, hdate2, ?_⟩
  · rw [hscore2, hsc, hscore1]
  · rw [hrisk2, hrk, hrisk1]
  · rw [hst2, hstatus, hst1]
  · intro hnow; rw [hdate2, hdate1, hnow]

/-- The record produced by enriching the empty record at the first
timestamp. -/
def cexR1 : CarrierData :=
  { emptyCarrier with
    authority_status := StrField.str "Unknown"
    safety_score := some 10
    risk_level := some "Low"
    extracted_date := some "2024-01-01T00:00:00"
    violations_12mo := some 0
    accidents_12mo := some 0 }

/-- The record produced by enriching `cexR1` at a later timestamp: identical
except for `extracted_date`. -/
def cexR2 : CarrierData :=
  { cexR1 with extracted_date := some "2024-01-02T00:00:00" }

/-- The empty record scores a perfect 10. -/
lemma empty_score_ten : calculate_safety_score emptyCarrier = 10 := by
  rw [safety_score_closed]
  simp only [emptyCarrier, coerceNum, Option.getD_none]
  norm_num [min_def]

/-- The once-enriched empty record still scores 10. -/
lemma cexR1_score_ten : calculate_safety_score cexR1 = 10 := by
  rw [safety_score_closed]
  simp only [cexR1, emptyCarrier, coerceNum, Option.getD_some]
  norm_num [min_def]

/-- Enriching the empty record at the first timestamp yields `cexR1`. -/
lemma enrich_empty_eq :
    enrich_carrier_data emptyCarrier "2024-01-01T00:00:00" = Except.ok cexR1 := by
  have hn : needsClassify emptyCarrier = true := rfl
  have hdet : determine_authority_status emptyCarrier = Except.ok "Unknown" := by
    decide
  simp only [enrich_carrier_data]
  rw [if_pos hn, hdet]
  simp only [Except.map]
  congr 1
  rw [empty_score_ten]
  simp [cexR1, emptyCarrier, determine_risk_level, coerceNum]

/-- Enriching `cexR1` at the second timestamp yields `cexR2`. -/
lemma enrich_cexR1_eq :
    enrich_carrier_data cexR1 "2024-01-02T00:00:00" = Except.ok cexR2 := by
  have hn : needsClassify cexR1 = true := by decide
  have hdet : determine_authority_status cexR1 = Except.ok "Unknown" := by decide
  simp only [enrich_carrier_data]
  rw [if_pos hn, hdet]
  simp only [Except.map]
  congr 1
  rw [cexR1_score_ten]
  simp [cexR2, cexR1, emptyCarrier, determine_risk_level, coerceNum]

/-- Claim C7, counterexample: `enrich(enrich(raw))` differs from
`enrich(raw)` on the derived field `extracted_date` whenever the two calls
happen at different times, because the code overwrites it with
`datetime.now()` on every call. -/
theorem C7_counterexample :
    enrich_carrier_data emptyCarrier "2024-01-01T00:00:00" = Except.ok cexR1 ∧
    enrich_carrier_data cexR1 "2024-01-02T00:00:00" = Except.ok cexR2 ∧
    cexR2.extracted_date ≠ cexR1.extracted_date :=
  ⟨enrich_empty_eq, enrich_cexR1_eq, by decide⟩

/-- Witness for claim C7's amended theorem at the concrete double
enrichment of the empty record. -/
theorem C7_enrich_idempotent_witness :
    cexR2.safety_score = cexR1.safety_score ∧
    cexR2.risk_level = cexR1.risk_level ∧
    cexR2.authority_status = cexR1.authority_status ∧
    cexR2.extracted_date = some "2024-01-02T00:00:00" := by
  obtain ⟨hs, hr, ha, hd, _⟩ :=
    C7_enrich_idempotent emptyCarrier "2024-01-01T00:00:00" "2024-01-02T00:00:00"
      cexR1 cexR2 enrich_empty_eq enrich_cexR1_eq
  exact ⟨hs, hr, ha, hd⟩

/-! ## Identifier normalizer (claim C8) -/

/-- Membership in the deduplication loop: kept iff present in the remaining
input and not already seen. -/
lemma mem_dedupAux {x : String} : ∀ (seen l : List String),
    (x ∈ dedupAux seen l ↔ x ∈ l ∧ x ∉ seen) := by
  intro seen l
  induction l generalizing seen with
  | nil => simp [dedupAux]
  | cons y ys ih =>
    by_cases h : y ∈ seen
    · simp only [dedupAux, if_pos h]
      rw [ih]
      constructor
      · rintro ⟨hys, hns⟩
        exact ⟨List.mem_cons_of_mem _ hys, hns⟩
      · rintro ⟨hyy, hns⟩
        rcases List.mem_cons.mp hyy with rfl | hys
        · exact absurd h hns
        · exact ⟨hys, hns⟩
    · simp only [dedupAux, if_neg h, List.mem_cons]
      rw [ih]
      constructor
      · rintro (rfl | ⟨hys, hns⟩)
        · exact ⟨Or.inl rfl, h⟩
        · refine ⟨Or.inr hys, fun hc => hns (List.mem_cons_of_mem _ hc)⟩
      · rintro ⟨hyy, hns⟩
        by_cases hxy : x = y
        · exact Or.inl hxy
        · rcases hyy with rfl | hys
          · exact absurd rfl hxy
          · refine Or.inr ⟨hys, fun hc => ?_⟩
            rcases List.mem_cons.mp hc with rfl | hc2
            · exact hxy rfl
            · exact hns hc2

/-- The deduplication loop emits no duplicates. -/
lemma nodup_dedupAux : ∀ (seen l : List String), (dedupAux seen l).Nodup := by
  intro seen l
  induction l generalizing seen with
  | nil => simp [dedupAux]
  | cons y ys ih =>
    by_cases h : y ∈ seen
    · simpa [dedupAux, h] using ih seen
    · simp only [dedupAux, if_neg h]
      rw [List.nodup_cons]
      refine ⟨fun hc => ?_, ih (y :: seen)⟩
      exact ((mem_dedupAux _ _).mp hc).2 (List.mem_cons_self _ _)

/-- The deduplication loop preserves the relative order of the input
(its output is a sublist). -/
lemma sublist_dedupAux : ∀ (seen l : List String), (dedupAux seen l).Sublist l := by
  intro seen l
  induction l generalizing seen with
  | nil => simp [dedupAux]
  | cons y ys ih =>
    by_cases h : y ∈ seen
    · simp only [dedupAux, if_pos h]
      exact (ih seen).cons y
    · simp only [dedupAux, if_neg h]
      exact (ih (y :: seen)).cons₂ y

/-- The deduplication loop keeps first occurrences: its output is ordered by
the position of each element's first occurrence in the input. -/
lemma pairwise_dedupAux : ∀ (seen l : List String),
    (dedupAux seen l).Pairwise (fun a b => l.indexOf a < l.indexOf b) := by
  intro seen l
  induction l generalizing seen with
  | nil => simp [dedupAux]
  | cons y ys ih =>
    by_cases h : y ∈ seen
    · simp only [dedupAux, if_pos h]
      refine (ih seen).imp_of_mem ?_
      intro a b ha hb hlt
      have hay : y ≠ a := fun hc => ((mem_dedupAux seen ys).mp ha).2 (hc ▸ h)
      have hby : y ≠ b := fun hc => ((mem_dedupAux seen ys).mp hb).2 (hc ▸ h)
      rw [List.indexOf_cons_ne ys hay, List.indexOf_cons_ne ys hby]
      exact Nat.succ_lt_succ hlt
    · simp only [dedupAux, if_neg h]
      refine List.Pairwise.cons ?_ ?_
      · intro b hb
        have hby : y ≠ b := fun hc =>
          ((mem_dedupAux _ _).mp hb).2 (hc ▸ List.mem_cons_self y seen)
        rw [List.indexOf_cons_self, List.indexOf_cons_ne ys hby]
        exact Nat.succ_pos _
      · refine (ih (y :: seen)).imp_of_mem ?_
        intro a b ha hb hlt
        have hay : y ≠ a := fun hc =>
          ((mem_dedupAux _ _).mp ha).2 (hc ▸ List.mem_cons_self y seen)
        have hby : y ≠ b := fun hc =>
          ((mem_dedupAux _ _).mp hb).2 (hc ▸ List.mem_cons_self y seen)
        rw [List.indexOf_cons_ne ys hay, List.indexOf_cons_ne ys hby]
        exact Nat.succ_lt_succ hlt

/-- Every token accepted by `clean_mc_number` is nonempty, purely numeric,
and at most 10 digits long. -/
lemma clean_shape {t s : String} (h : clean_mc_number t = some s) :
    s ≠ "" ∧ s.toList.all Char.isDigit ∧ s.length ≤ 10 := by
  simp only [clean_mc_number] at h
  split_ifs at h with h0 hcond
  obtain ⟨hne, hdig, hlen⟩ := hcond
  injection h with h
  rw [← h]
  exact ⟨fun hc => hne (congrArg String.data hc), hdig, hlen⟩

/-- Claim C8: the normalizer returns exactly the tokens whose cleaned form
(separators and a leading case-insensitive `MC` removed) is purely numeric
and at most 10 digits, with duplicates removed keeping the first occurrence
in first-seen order, so the output has no duplicates; Scenario D:
`"MC-123, 456\n  MC123  \n789"` normalizes to `["123", "456", "789"]`. -/
theorem C8_normalizer (input : String) :
    (extract_mc_numbers_from_input input).Nodup ∧
    (extract_mc_numbers_from_input input).Sublist (cleanedTokens input) ∧
    (∀ s, s ∈ extract_mc_numbers_from_input input ↔
      ∃ t ∈ rawParts input, clean_mc_number t = some s) ∧
    (∀ s ∈ extract_mc_numbers_from_input input,
      s ≠ "" ∧ s.toList.all Char.isDigit ∧ s.length ≤ 10) ∧
    (extract_mc_numbers_from_input input).Pairwise
      (fun a b => (cleanedTokens input).indexOf a < (cleanedTokens input).indexOf b) ∧
    extract_mc_numbers_from_input "MC-123, 456\n  MC123  \n789" = ["123", "456", "789"] := by
  refine ⟨nodup_dedupAux _ _, sublist_dedupAux _ _, ?_, ?_, pairwise_dedupAux _ _, ?_⟩
  · intro s
    rw [show extract_mc_numbers_from_input input
        = dedupAux [] (cleanedTokens input) from rfl]
    rw [mem_dedupAux]
    simp [cleanedTokens, List.mem_filterMap]
  · intro s hs
    have hmem : s ∈ cleanedTokens input :=
      ((mem_dedupAux [] (cleanedTokens input)).mp hs).1
    obtain ⟨t, _, hct⟩ := List.mem_filterMap.mp hmem
    exact clean_shape hct
  · decide

/-- Witness for claim C8 at the Scenario D input. -/
theorem C8_normalizer_witness :
    (extract_mc_numbers_from_input "MC-123, 456\n  MC123  \n789").Nodup ∧
    ("456" ∈ extract_mc_numbers_from_input "MC-123, 456\n  MC123  \n789" ↔
      ∃ t ∈ rawParts "MC-123, 456\n  MC123  \n789", clean_mc_number t = some "456") ∧
    ("456" ≠ "" ∧ ("456" : String).toList.all Char.isDigit ∧
      ("456" : String).length ≤ 10) := by
  obtain ⟨h1, _, h3, h4, _, _⟩ := C8_normalizer "MC-123, 456\n  MC123  \n789"
  exact ⟨h1, h3 "456", h4 "456" (by decide)⟩

/-! ## Retry/backoff policy (claim C3) -/

/-- Invariants of the retry loop from any intermediate state: at most
`left + 1` further attempts; the n-th consecutive failure (with attempts
remaining) sleeps `(retry_count) * 2` seconds; exhaustion happens exactly at
attempt index `k + left` with the last error annotated with the retry count;
and the loop succeeds iff some attempt in the remaining budget succeeds. -/
lemma runAttemptsFrom_spec (f : Nat → Except String Unit) :
    ∀ (left k : Nat),
      (1 ≤ (runAttemptsFrom f k left).attempts ∧
       (runAttemptsFrom f k left).attempts ≤ left + 1) ∧
      (runAttemptsFrom f k left).sleeps =
        (List.range ((runAttemptsFrom f k left).attempts - 1)).map
          (fun i => (k + i + 1) * 2) ∧
      (∀ reason rc,
        (runAttemptsFrom f k left).outcome = ItemOutcome.exhausted reason rc →
        rc = k + left ∧ (runAttemptsFrom f k left).attempts = left + 1 ∧
        ∃ msg, f (k + left) = Except.error msg ∧
          reason = msg ++ retrySuffix (k + left)) ∧
      ((runAttemptsFrom f k left).outcome = ItemOutcome.succeeded ↔
        ∃ j, j ≤ left ∧ f (k + j) = Except.ok ()) := by
  intro left
  induction left with
  | zero =>
    intro k
    cases hfk : f k with
    | ok u =>
      cases u
      simp only [runAttemptsFrom, hfk]
      refine ⟨⟨le_refl _, by omega⟩, by simp, ?_, ?_⟩
      · intro reason rc h
        exact absurd h (by simp)
      · constructor
        · intro _
          exact ⟨0, le_refl _, by rw [Nat.add_zero, hfk]⟩
        · intro _
          trivial
    | error e =>
      simp only [runAttemptsFrom, hfk]
      refine ⟨⟨le_refl _, by omega⟩, by simp, ?_, ?_⟩
      · intro reason rc h
        injection h with h1 h2
        refine ⟨by omega, by trivial, e, ?_, ?_⟩
        · rw [Nat.add_zero, hfk]
        · rw [Nat.add_zero, ← h1]
      · constructor
        · intro h
          exact absurd h (by simp)
        · rintro ⟨j, hj, hok⟩
          rw [Nat.le_zero] at hj
          subst hj
          rw [Nat.add_zero, hfk] at hok
          exact absurd hok (by simp)
  | succ left ih =>
    intro k
    cases hfk : f k with
    | ok u =>
      cases u
      simp only [runAttemptsFrom, hfk]
      refine ⟨⟨le_refl _, by omega⟩, by simp, ?_, ?_⟩
      · intro reason rc h
        exact absurd h (by simp)
      · constructor
        · intro _
          exact ⟨0, Nat.zero_le _, by rw [Nat.add_zero, hfk]⟩
        · intro _
          trivial
    | error e =>
      simp only [runAttemptsFrom, hfk]
      obtain ⟨⟨hA1, hA2⟩, hS, hE, hOK⟩ := ih (k + 1)
      refine ⟨⟨by omega, by omega⟩, ?_, ?_, ?_⟩
      · rw [hS]
        obtain ⟨m, hm⟩ : ∃ m, (runAttemptsFrom f (k + 1) left).attempts = m + 1 :=
          ⟨(runAttemptsFrom f (k + 1) left).attempts - 1, by omega⟩
        rw [hm]
        simp only [Nat.add_sub_cancel]
        rw [List.range_succ_eq_map]
        simp only [List.map_cons, List.map_map]
        refine congrArg₂ List.cons (by norm_num) ?_
        refine List.map_congr_left ?_
        intro i _
        simp only [Function.comp]
        omega
      · intro reason rc h
        obtain ⟨hrc, hatt, msg, hmsg, hreason⟩ := hE reason rc h
        refine ⟨by omega, by omega, msg, ?_, ?_⟩
        · rw [show k + (left + 1) = k + 1 + left by omega]
          exact hmsg
        · rw [show k + (left + 1) = k + 1 + left by omega]
          exact hreason
      · rw [hOK]
        constructor
        · rintro ⟨j, hj, hok⟩
          exact ⟨j + 1, by omega,
            by rw [show k + (j + 1) = k + 1 + j by omega]; exact hok⟩
        · rintro ⟨j, hj, hok⟩
          cases j with
          | zero =>
            rw [Nat.add_zero, hfk] at hok
            exact absurd hok (by simp)
          | succ j' =>
            exact ⟨j', by omega,
              by rw [show k + 1 + j' = k + (j' + 1) by omega]; exact hok⟩

/-- Claim C3: for every identifier, processing reaches exactly one of
{success, exhausted}; the number of lookup attempts is at most
`max_retries + 1`; after the n-th consecutive failure with attempts remaining
the loop sleeps `n * 2` seconds (2s, 4s, 6s, ...); and on exhaustion the
recorded retry count equals `max_retries` and the reason is the last error
annotated with the retry count. -/
theorem C3_retry_policy (f : Nat → Except String Unit) (maxRetries : Nat) :
    (processItem f maxRetries).attempts ≤ maxRetries + 1 ∧
    (processItem f maxRetries).sleeps =
      (List.range ((processItem f maxRetries).attempts - 1)).map
        (fun i => (i + 1) * 2) ∧
    (∀ reason rc,
      (processItem f maxRetries).outcome = ItemOutcome.exhausted reason rc →
      rc = maxRetries ∧ (processItem f maxRetries).attempts = maxRetries + 1 ∧
      ∃ msg, f maxRetries = Except.error msg ∧
        reason = msg ++ retrySuffix maxRetries) ∧
    ((processItem f maxRetries).outcome = ItemOutcome.succeeded ↔
      ∃ j, j ≤ maxRetries ∧ f j = Except.ok ()) ∧
    ((processItem f maxRetries).outcome = ItemOutcome.succeeded ∨
      ∃ reason rc,
        (processItem f maxRetries).outcome = ItemOutcome.exhausted reason rc) := by
  obtain ⟨⟨_, hA⟩, hS, hE, hOK⟩ := runAttemptsFrom_spec f maxRetries 0
  simp only [Nat.zero_add] at hA hS hE hOK
  refine ⟨hA, ?_, ?_, ?_, ?_⟩
  · simpa only [processItem, Nat.zero_add] using hS
  · intro reason rc h
    exact hE reason rc h
  · exact hOK
  · cases houtcome : (processItem f maxRetries).outcome with
    | succeeded => exact Or.inl rfl
    | exhausted reason rc => exact Or.inr ⟨reason, rc, rfl⟩

/-- An attempt oracle whose every lookup fails. -/
def alwaysFail : Nat → Except String Unit :=
  fun _ => Except.error "No data returned from scraper"

/-- Witness for claim C3 at the always-failing oracle with
`max_retries = 3`: 4 attempts, sleeps 2s/4s/6s, failure recorded with retry
count 3 and annotated reason. -/
theorem C3_retry_policy_witness :
    (processItem alwaysFail 3).attempts ≤ 4 ∧
    (processItem alwaysFail 3).sleeps = [2, 4, 6] ∧
    (3 = 3 ∧ (processItem alwaysFail 3).attempts = 4 ∧
      ∃ msg, alwaysFail 3 = Except.error msg ∧
        "No data returned from scraper (after 3 retries)" = msg ++ retrySuffix 3) := by
  obtain ⟨h1, h2, h3, _, _⟩ := C3_retry_policy alwaysFail 3
  refine ⟨h1, ?_, h3 _ 3 (by decide)⟩
  have ha : (processItem alwaysFail 3).attempts = 4 := by decide
  rw [h2, ha]
  decide

/-! ## Job orchestrator counters and failure absorption (claims C1, C2) -/

/-- Counter invariants of the per-item loop: the persisted progress sums
increase by exactly one per item, the final counters account for every item,
and both counters are non-decreasing. -/
lemma runJobAux_sums (attempt : Nat → Nat → Except String Unit) (mr : Nat) :
    ∀ (idxs : List Nat) (p f : Nat),
      (runJobAux attempt mr idxs p f).updates.map (fun u => u.processed + u.failed)
        = (List.range idxs.length).map (fun j => p + f + j + 1) ∧
      (runJobAux attempt mr idxs p f).pEnd + (runJobAux attempt mr idxs p f).fEnd
        = p + f + idxs.length ∧
      p ≤ (runJobAux attempt mr idxs p f).pEnd ∧
      f ≤ (runJobAux attempt mr idxs p f).fEnd := by
  intro idxs
  induction idxs with
  | nil => intro p f; simp [runJobAux]
  | cons i rest ih =>
    intro p f
    cases ho : (processItem (attempt i) mr).outcome with
    | succeeded =>
      simp only [runJobAux, ho]
      obtain ⟨hm, hsum, hp, hf⟩ := ih (p + 1) f
      refine ⟨?_, by simp; omega, by omega, by omega⟩
      rw [List.length_cons, List.range_succ_eq_map]
      simp only [List.map_cons, List.map_map, hm]
      refine congrArg₂ List.cons (by simp [mkUpdate]; omega) ?_
      refine List.map_congr_left ?_
      intro j _
      simp only [Function.comp]
      omega
    | exhausted reason rc =>
      simp only [runJobAux, ho]
      obtain ⟨hm, hsum, hp, hf⟩ := ih p (f + 1)
      refine ⟨?_, by simp; omega, by omega, by omega⟩
      rw [List.length_cons, List.range_succ_eq_map]
      simp only [List.map_cons, List.map_map, hm]
      refine congrArg₂ List.cons (by simp [mkUpdate]; omega) ?_
      refine List.map_congr_left ?_
      intro j _
      simp only [Function.comp]
      omega

/-- Every progress update persisted inside the loop has status
`"processing"`. -/
lemma runJobAux_status (attempt : Nat → Nat → Except String Unit) (mr : Nat) :
    ∀ (idxs : List Nat) (p f : Nat),
      ∀ u ∈ (runJobAux attempt mr idxs p f).updates, u.status = "processing" := by
  intro idxs
  induction idxs with
  | nil => intro p f u hu; simp [runJobAux] at hu
  | cons i rest ih =>
    intro p f u hu
    cases ho : (processItem (attempt i) mr).outcome with
    | succeeded =>
      simp only [runJobAux, ho] at hu
      rcases List.mem_cons.mp hu with rfl | hu2
      · rfl
      · exact ih (p + 1) f u hu2
    | exhausted reason rc =>
      simp only [runJobAux, ho] at hu
      rcases List.mem_cons.mp hu with rfl | hu2
      · rfl
      · exact ih p (f + 1) u hu2

/-- Starting from any persisted state, the loop's updates are
componentwise monotone. -/
lemma runJobAux_chain (attempt : Nat → Nat → Except String Unit) (mr : Nat) :
    ∀ (idxs : List Nat) (p f : Nat) (x : JobUpdate),
      x.processed = p → x.failed = f →
      List.Chain' (fun u v => u.processed ≤ v.processed ∧ u.failed ≤ v.failed)
        (x :: (runJobAux attempt mr idxs p f).updates) := by
  intro idxs
  induction idxs with
  | nil => intro p f x _ _; simp [runJobAux]
  | cons i rest ih =>
    intro p f x hxp hxf
    cases ho : (processItem (attempt i) mr).outcome with
    | succeeded =>
      simp only [runJobAux, ho]
      rw [List.chain'_cons]
      exact ⟨⟨hxp ▸ Nat.le_succ p, hxf ▸ le_refl f⟩, ih (p + 1) f _ rfl rfl⟩
    | exhausted reason rc =>
      simp only [runJobAux, ho]
      rw [List.chain'_cons]
      exact ⟨⟨hxp ▸ le_refl p, hxf ▸ Nat.le_succ f⟩, ih p (f + 1) _ rfl rfl⟩

/-- The last persisted update inside the loop carries the final counters. -/
lemma runJobAux_last (attempt : Nat → Nat → Except String Unit) (mr : Nat) :
    ∀ (idxs : List Nat) (p f : Nat) (x : JobUpdate),
      x.processed = p → x.failed = f →
      ∃ u, (x :: (runJobAux attempt mr idxs p f).updates).getLast? = some u ∧
        u.processed = (runJobAux attempt mr idxs p f).pEnd ∧
        u.failed = (runJobAux attempt mr idxs p f).fEnd := by
  intro idxs
  induction idxs with
  | nil =>
    intro p f x hxp hxf
    exact ⟨x, rfl, hxp, hxf⟩
  | cons i rest ih =>
    intro p f x hxp hxf
    cases ho : (processItem (attempt i) mr).outcome with
    | succeeded =>
      simp only [runJobAux, ho]
      rw [List.getLast?_cons_cons]
      exact ih (p + 1) f _ rfl rfl
    | exhausted reason rc =>
      simp only [runJobAux, ho]
      rw [List.getLast?_cons_cons]
      exact ih p (f + 1) _ rfl rfl

/-- The persisted `FailedExtraction` rows are exactly the exhausted items,
in input order. -/
lemma runJobAux_failures (attempt : Nat → Nat → Except String Unit) (mr : Nat) :
    ∀ (idxs : List Nat) (p f : Nat),
      (runJobAux attempt mr idxs p f).failures = idxs.filterMap (fun i =>
        match (processItem (attempt i) mr).outcome with
        | ItemOutcome.succeeded => none
        | ItemOutcome.exhausted reason rc => some ⟨i, reason, rc⟩) := by
  intro idxs
  induction idxs with
  | nil => intro p f; simp [runJobAux]
  | cons i rest ih =>
    intro p f
    cases ho : (processItem (attempt i) mr).outcome with
    | succeeded =>
      simp only [runJobAux, ho, List.filterMap_cons]
      exact ih (p + 1) f
    | exhausted reason rc =>
      simp only [runJobAux, ho, List.filterMap_cons]
      rw [ih p (f + 1)]

/-- Claim C1 amended: counters start at `(0, 0)`; both are monotonically
non-decreasing over the persisted updates; `processed + failed ≤ total`
holds at every persisted update; each identifier increments the sum by
exactly one; and when the orchestrator does not fail,
`processed + failed = total` holds at the terminal `completed` update.
(A job that fails at orchestrator level can end with
`processed + failed < total` — see the counterexample.) -/
theorem C1_job_counters (init : Except String Unit)
    (attempt : Nat → Nat → Except String Unit) (maxRetries n : Nat) :
    (runExtractionJob init attempt maxRetries n).updates.head? =
      some (mkUpdate "processing" 0 0) ∧
    List.Chain' (fun u v => u.processed ≤ v.processed ∧ u.failed ≤ v.failed)
      (runExtractionJob init attempt maxRetries n).updates ∧
    (∀ u ∈ (runExtractionJob init attempt maxRetries n).updates,
      u.processed + u.failed ≤ n) ∧
    (init = Except.ok () →
      ((runExtractionJob init attempt maxRetries n).updates.drop 1).map
          (fun u => u.processed + u.failed)
        = (List.range n).map (fun j => j + 1) ++ [n] ∧
      ∃ u, (runExtractionJob init attempt maxRetries n).updates.getLast? = some u ∧
        u.status = "completed" ∧ u.processed + u.failed = n) := by
  cases init with
  | error e =>
    refine ⟨rfl, ?_, ?_, ?_⟩
    · exact List.chain'_cons.mpr ⟨⟨le_refl 0, le_refl 0⟩, List.chain'_singleton _⟩
    · intro u hu
      rcases List.mem_cons.mp hu with rfl | hu2
      · exact Nat.zero_le n
      rcases List.mem_cons.mp hu2 with rfl | hu3
      · exact Nat.zero_le n
      · simp at hu3
    · intro h
      exact absurd h (by simp)
  | ok u =>
    cases u
    obtain ⟨hmap, hsum, hp, hf⟩ := runJobAux_sums attempt maxRetries (List.range n) 0 0
    have hchain := runJobAux_chain attempt maxRetries (List.range n) 0 0
      (mkUpdate "processing" 0 0) rfl rfl
    obtain ⟨w, hw, hwp, hwf⟩ := runJobAux_last attempt maxRetries (List.range n) 0 0
      (mkUpdate "processing" 0 0) rfl rfl
    simp only [List.length_range] at hmap hsum
    refine ⟨rfl, ?_, ?_, ?_⟩
    · show List.Chain' _ (mkUpdate "processing" 0 0 ::
        ((runJobAux attempt maxRetries (List.range n) 0 0).updates
          ++ [mkUpdate "completed" (runJobAux attempt maxRetries (List.range n) 0 0).pEnd
                (runJobAux attempt maxRetries (List.range n) 0 0).fEnd]))
      rw [← List.cons_append, List.chain'_append]
      refine ⟨hchain, List.chain'_singleton _, ?_⟩
      intro x hx y hy
      rw [hw] at hx
      simp only [Option.mem_def, Option.some.injEq] at hx
      simp only [List.head?_cons, Option.mem_def, Option.some.injEq] at hy
      subst hx
      subst hy
      exact ⟨le_of_eq hwp, le_of_eq hwf⟩
    · intro u hu
      rcases List.mem_cons.mp hu with rfl | hu2
      · exact Nat.zero_le n
      rcases List.mem_append.mp hu2 with hu3 | hu4
      · have hm : u.processed + u.failed ∈
            (runJobAux attempt maxRetries (List.range n) 0 0).updates.map
              (fun u => u.processed + u.failed) :=
          List.mem_map_of_mem _ hu3
        rw [hmap] at hm
        obtain ⟨j, hj, hval⟩ := List.mem_map.mp hm
        rw [List.mem_range] at hj
        omega
      · simp only [List.mem_singleton] at hu4
        subst hu4
        show (runJobAux attempt maxRetries (List.range n) 0 0).pEnd
          + (runJobAux attempt maxRetries (List.range n) 0 0).fEnd ≤ n
        omega
    · intro _
      constructor
      · show ((mkUpdate "processing" 0 0 ::
          ((runJobAux attempt maxRetries (List.range n) 0 0).updates
            ++ [mkUpdate "completed" _ _])).drop 1).map _ = _
        rw [List.drop_one, List.tail_cons, List.map_append, hmap]
        refine congrArg₂ List.append ?_ ?_
        · refine List.map_congr_left ?_
          intro j _
          omega
        · show [(runJobAux attempt maxRetries (List.range n) 0 0).pEnd
              + (runJobAux attempt maxRetries (List.range n) 0 0).fEnd] = [n]
          exact congrArg (fun k => [k]) (by omega)
      · have hpf : (runJobAux attempt maxRetries (List.range n) 0 0).pEnd
            + (runJobAux attempt maxRetries (List.range n) 0 0).fEnd = n := by omega
        refine ⟨mkUpdate "completed"
            (runJobAux attempt maxRetries (List.range n) 0 0).pEnd
            (runJobAux attempt maxRetries (List.range n) 0 0).fEnd, ?_, rfl, hpf⟩
        show (mkUpdate "processing" 0 0 ::
          ((runJobAux attempt maxRetries (List.range n) 0 0).updates
            ++ [mkUpdate "completed" _ _])).getLast? = _
        rw [← List.cons_append, List.getLast?_concat]

/-- An attempt oracle whose every lookup succeeds. -/
def alwaysOk : Nat → Nat → Except String Unit := fun _ _ => Except.ok ()

/-- Scenario E oracle: the second identifier (index 1) permanently fails,
the others succeed. -/
def scenarioE : Nat → Nat → Except String Unit :=
  fun i _ => if i = 1 then Except.error "No data returned from scraper" else Except.ok ()

/-- Claim C1, counterexample: a job of one identifier whose scraper
initialization fails ends in the terminal status `"failed"` (with
`completed_at` set) while `processed + failed = 0 ≠ 1 = total`, refuting
`processed_count + failed_count = total` for terminal `failed` jobs. -/
theorem C1_terminal_counterexample :
    (runExtractionJob (Except.error "Scraper initialization failed")
        alwaysOk 3 1).updates.getLast? = some (mkUpdate "failed" 0 0) ∧
    (mkUpdate "failed" 0 0).status = "failed" ∧
    (mkUpdate "failed" 0 0).completedAtSet = true ∧
    (mkUpdate "failed" 0 0).processed + (mkUpdate "failed" 0 0).failed ≠ 1 :=
  ⟨rfl, rfl, rfl, by decide⟩

/-- Witness for claim C1's amended theorem at Scenario E (three identifiers,
the second permanently failing). -/
theorem C1_job_counters_witness :
    ((runExtractionJob (Except.ok ()) scenarioE 3 3).updates.drop 1).map
        (fun u => u.processed + u.failed)
      = (List.range 3).map (fun j => j + 1) ++ [3] ∧
    (∃ u, (runExtractionJob (Except.ok ()) scenarioE 3 3).updates.getLast? = some u ∧
      u.status = "completed" ∧ u.processed + u.failed = 3) := by
  obtain ⟨_, _, _, h4⟩ := C1_job_counters (Except.ok ()) scenarioE 3 3
  exact h4 rfl

/-- Claim C2: when the orchestrator-level step succeeds, the job always ends
`completed` (with `completed_at` set) no matter how many items failed, and
the per-item failures are visible exactly as the `FailedExtraction` rows of
the exhausted items; a `failed` status occurs only when the orchestrator
itself raised. -/
theorem C2_failure_absorption (init : Except String Unit)
    (attempt : Nat → Nat → Except String Unit) (maxRetries n : Nat) :
    (init = Except.ok () →
      ∃ u, (runExtractionJob init attempt maxRetries n).updates.getLast? = some u ∧
        u.status = "completed" ∧ u.completedAtSet = true) ∧
    (init = Except.ok () →
      (runExtractionJob init attempt maxRetries n).failures =
        (List.range n).filterMap (fun i =>
          match (processItem (attempt i) maxRetries).outcome with
          | ItemOutcome.succeeded => none
          | ItemOutcome.exhausted reason rc => some ⟨i, reason, rc⟩)) ∧
    ((∃ u ∈ (runExtractionJob init attempt maxRetries n).updates,
        u.status = "failed") → ∃ e, init = Except.error e) := by
  refine ⟨?_, ?_, ?_⟩
  · intro h
    subst h
    refine ⟨mkUpdate "completed"
        (runJobAux attempt maxRetries (List.range n) 0 0).pEnd
        (runJobAux attempt maxRetries (List.range n) 0 0).fEnd, ?_, rfl, rfl⟩
    show (mkUpdate "processing" 0 0 ::
      ((runJobAux attempt maxRetries (List.range n) 0 0).updates
        ++ [mkUpdate "completed" _ _])).getLast? = _
    rw [← List.cons_append, List.getLast?_concat]
  · intro h
    subst h
    exact runJobAux_failures attempt maxRetries (List.range n) 0 0
  · rintro ⟨u, hu, hst⟩
    cases init with
    | error e => exact ⟨e, rfl⟩
    | ok v =>
      cases v
      exfalso
      rcases List.mem_cons.mp hu with rfl | hu2
      · exact absurd hst (by decide)
      rcases List.mem_append.mp hu2 with hu3 | hu4
      · have hpr := runJobAux_status attempt maxRetries (List.range n) 0 0 u hu3
        rw [hpr] at hst
        exact absurd hst (by decide)
      · simp only [List.mem_singleton] at hu4
        subst hu4
        exact absurd hst (by show ¬("completed" = "failed"); decide)

/-- Witness for claim C2 at Scenario E: the job completes with exactly one
`FailedExtraction` row, for index 1 with retry count 3. -/
theorem C2_failure_absorption_witness :
    (∃ u, (runExtractionJob (Except.ok ()) scenarioE 3 3).updates.getLast? = some u ∧
      u.status = "completed" ∧ u.completedAtSet = true) ∧
    (runExtractionJob (Except.ok ()) scenarioE 3 3).failures =
      (List.range 3).filterMap (fun i =>
        match (processItem (scenarioE i) 3).outcome with
        | ItemOutcome.succeeded => none
        | ItemOutcome.exhausted reason rc => some ⟨i, reason, rc⟩) ∧
    (runExtractionJob (Except.ok ()) scenarioE 3 3).failures =
      [⟨1, "No data returned from scraper (after 3 retries)", 3⟩] := by
  obtain ⟨h1, h2, _⟩ := C2_failure_absorption (Except.ok ()) scenarioE 3 3
  exact ⟨h1 rfl, h2 rfl, by decide⟩
